import Mathlib

set_option maxRecDepth 40000

/-!
Shallow embedding of the two eBPF probe programs of this repository:

* `pkg/gadgets/dns/tracer/bpf/dns.c` — a socket-filter program (`bpf_prog1`)
  that validates an IPv4/UDP/DNS-query frame, traverses the query name with a
  verifier-bounded skip-counter loop, and emits a DNS query event; and
* `pkg/gadgets/audit-seccomp/tracer/bpf/audit-seccomp.c` — a kprobe
  (`kprobe__audit_seccomp`) that resolves the task's mount-namespace id,
  optionally filters on it, assembles an event in a per-CPU scratch slot,
  enriches it from the `containers` map, and emits it.

Frames are modelled as total byte functions (one byte per offset); emission is
modelled by an `Option` result: `none` means the probe returned without
calling `bpf_perf_event_output`, `some ev` means it emitted `ev`.
-/

namespace IG

/-! ## Frame model and BPF byte-load helpers -/

/-- A received frame as seen by the socket filter: a total function giving the
byte at each absolute offset, plus the `skb->pkt_type` metadata field. -/
structure Skb where
  bytes : Nat → Nat
  pkt_type : Nat

/-- A frame byte is always an 8-bit value. -/
def byteAt (skb : Skb) (off : Nat) : Nat := skb.bytes off % 256

/-- `load_byte(skb, off)` (`BPF_LD | BPF_ABS | BPF_B`). -/
def load_byte (skb : Skb) (off : Nat) : Nat := byteAt skb off

/-- `load_half(skb, off)` (`BPF_LD | BPF_ABS | BPF_H`): the kernel converts the
two wire bytes from network (big-endian) order to a host integer. -/
def load_half (skb : Skb) (off : Nat) : Nat :=
  byteAt skb off * 256 + byteAt skb (off + 1)

/-! ## Protocol constants (from linux/if_ether.h, linux/in.h and the header
layouts fixed by dns.c) -/

def ETH_HLEN : Nat := 14
def ETH_P_IP : Nat := 0x0800
def IPPROTO_UDP : Nat := 17

/-- `offsetof(struct ethhdr, h_proto)`. -/
def ethProtoOff : Nat := 12

/-- `ETH_HLEN + offsetof(struct iphdr, protocol)`. -/
def ipProtoOff : Nat := ETH_HLEN + 9

/-- `DNS_OFF = ETH_HLEN + sizeof(struct iphdr) + sizeof(struct udphdr)`. -/
def DNS_OFF : Nat := ETH_HLEN + 20 + 8

/-- `offsetof(struct dnshdr, flags)` relative to `DNS_OFF`. -/
def flagsOff : Nat := DNS_OFF + 2

def qdcountOff : Nat := DNS_OFF + 4
def ancountOff : Nat := DNS_OFF + 6
def nscountOff : Nat := DNS_OFF + 8

/-- `sizeof(struct dnshdr)`. -/
def dnshdrSize : Nat := 12

/-- Offset of the DNS question name: the first byte after the fixed header. -/
def qnameOff : Nat := DNS_OFF + dnshdrSize

/-- Modelled from the spec: the compile-time maximum DNS name length
`MAX_DNS_NAME`, defined in `dns-common.h` which is not under `src/`; the
upstream header sets it to 255.  None of the theorems below depend on the
particular value. -/
def MAX_DNS_NAME : Nat := 255

/-- The `qr` member of `union dnsflags` as compiled for the (little-endian)
BPF target, applied to the host-order 16-bit value returned by `load_half`.
The union's first bitfield byte is `rd:1 tc:1 aa:2 opcode:4 qr:1`, so `qr` is
bit 7 of the low byte of the stored `__u16`; since the stored value is the
host-order (byte-swapped) image of the two wire bytes, this bit is bit 7 of
the second wire byte. -/
def dnsflags_qr (v : Nat) : Nat := v / 128 % 2

/-- The actual DNS QR ("response") bit of the wire flags field: the most
significant bit of the big-endian 16-bit value. -/
def wireQR (v : Nat) : Nat := v / 32768 % 2

/-! ## The label-traversal loop of `bpf_prog1`

```
unsigned int i; unsigned int skip = 0;
for (i = 0; i < MAX_DNS_NAME ; i++) {
        if (skip != 0) {
                skip--;
        } else {
                int label_len = load_byte(skb, DNS_OFF + sizeof(struct dnshdr) + i);
                if (label_len == 0)
                        break;
                skip = label_len;
        }
}
```
The loop bound `i < MAX_DNS_NAME` is represented by the fuel argument, kept
equal to `MAX_DNS_NAME - i`; each loop iteration consumes one unit of fuel
and `break` returns the current `i` immediately. -/
def skipLoop (skb : Skb) : Nat → Nat → Nat → Nat
  | 0, i, _ => i
  | fuel + 1, i, skip =>
    if skip ≠ 0 then
      skipLoop skb fuel (i + 1) (skip - 1)
    else
      if load_byte skb (qnameOff + i) = 0 then i
      else skipLoop skb fuel (i + 1) (load_byte skb (qnameOff + i))

/-- The value of `i` after the loop. -/
def dnsLoopEnd (skb : Skb) : Nat := skipLoop skb MAX_DNS_NAME 0 0

/-- `__u32 len = i < MAX_DNS_NAME ? i : MAX_DNS_NAME;` -/
def capturedLen (skb : Skb) : Nat :=
  if dnsLoopEnd skb < MAX_DNS_NAME then dnsLoopEnd skb else MAX_DNS_NAME

/-! ## The emitted DNS event -/

/-- `struct event_t`: modelled from the spec (the struct lives in
`dns-common.h`, not under `src/`): a fixed-capacity name buffer of
`MAX_DNS_NAME` bytes, the packet-type classifier and the 16-bit query type. -/
structure event_t where
  name : List Nat
  pkt_type : Nat
  qtype : Nat
deriving DecidableEq

/-- The name buffer after `struct event_t event = {0,};` followed by
`bpf_skb_load_bytes(skb, DNS_OFF + sizeof(struct dnshdr), event.name, len)`
(the latter executed only when `len > 0`, which copies the first `len` frame
bytes of the question; for `len = 0` the buffer stays all-zero, which the
single expression below also yields). -/
def loadName (skb : Skb) (len : Nat) : List Nat :=
  (List.range MAX_DNS_NAME).map fun j =>
    if j < len then load_byte skb (qnameOff + j) else 0

/-- The validation chain of `bpf_prog1` as a single predicate (the six
short-circuit filters, in source order). -/
def passesValidation (skb : Skb) : Bool :=
  load_half skb ethProtoOff == ETH_P_IP &&
  load_byte skb ipProtoOff == IPPROTO_UDP &&
  dnsflags_qr (load_half skb flagsOff) == 0 &&
  load_half skb qdcountOff == 1 &&
  load_half skb ancountOff == 0 &&
  load_half skb nscountOff == 0

/-- `bpf_prog1`: `none` models a `return 0` before the
`bpf_perf_event_output` call, `some ev` models emission of `ev`. -/
def bpf_prog1 (skb : Skb) : Option event_t :=
  if load_half skb ethProtoOff ≠ ETH_P_IP then none
  else if load_byte skb ipProtoOff ≠ IPPROTO_UDP then none
  else if dnsflags_qr (load_half skb flagsOff) ≠ 0 then none
  else if load_half skb qdcountOff ≠ 1 then none
  else if load_half skb ancountOff ≠ 0 then none
  else if load_half skb nscountOff ≠ 0 then none
  else
    some { name := loadName skb (capturedLen skb)
           pkt_type := skb.pkt_type
           qtype := load_half skb (qnameOff + capturedLen skb + 1) }

/-! ## The direct additive-jump name-length algorithm

Stated from the spec's words for the refinement claim: "advance the index by
label length + 1 at each length byte until a zero label", capped at
`MAX_DNS_NAME`.  The fuel argument only realises the recursion; when it is at
least `MAX_DNS_NAME` it is never exhausted, since every step either stops or
advances the index by at least 2. -/
def directJump (skb : Skb) : Nat → Nat → Nat
  | 0, i => min i MAX_DNS_NAME
  | fuel + 1, i =>
    if MAX_DNS_NAME ≤ i then MAX_DNS_NAME
    else if load_byte skb (qnameOff + i) = 0 then i
    else directJump skb fuel (i + load_byte skb (qnameOff + i) + 1)

/-- The direct algorithm's capped query-name length. -/
def directNameLen (skb : Skb) : Nat := directJump skb MAX_DNS_NAME 0

/-! ## The audit-seccomp kprobe

`kprobe__audit_seccomp` reads two probe arguments, resolves the task's mount
namespace, optionally consults the `filter` map (compiled in only under
`WITH_FILTER`), builds the event in the per-CPU `tmp_event` scratch slot and
enriches it from the `containers` map. -/

/-- Modelled from the spec: the fixed size of `struct container` (the
container identity snapshot), declared in `gadgettracermanager/bpf-maps.h`
which is not under `src/`; the snapshot is opaque beyond its size, so the
size is abstracted as a constant. -/
def CONTAINER_SIZE : Nat := 64

/-- `TASK_COMM_LEN`: size of the event's `comm` buffer filled by
`bpf_get_current_comm`. -/
def TASK_COMM_LEN : Nat := 16

/-- `bpf_get_current_comm(&event->comm, sizeof(event->comm))`: the task name
truncated to the buffer size and zero-padded. -/
def comm_fixed (comm : List Nat) : List Nat :=
  comm.take TASK_COMM_LEN ++ List.replicate (TASK_COMM_LEN - comm.length) 0

/-- `struct event`: modelled from the spec (the struct lives in
`audit-seccomp.h`, not under `src/`): 32-bit process id, 64-bit mount
namespace id, syscall number, signed disposition code, fixed-length command
name, container identity snapshot. -/
structure AuditEvent where
  pid : Nat
  mntns_id : Nat
  syscall : Nat
  code : Int
  comm : List Nat
  container : List Nat
deriving DecidableEq

/-- The kernel-side inputs of one probe firing: the two probe arguments read
from the registers, the current pid/tgid word, the current task name, and the
mount-namespace inode number reached by
`BPF_CORE_READ(task, nsproxy, mnt_ns, ns.inum)`. -/
structure AuditCtx where
  syscall : Nat
  code : Int
  pid_tgid : Nat
  comm : List Nat
  mntns_id : Nat

/-- The map state visible to one firing: whether `WITH_FILTER` was compiled
in, the key set of the `filter` map, the `containers` enrichment map, and the
`tmp_event` per-CPU scratch slot (`none` models a failed
`bpf_map_lookup_elem`, `some stale` a slot still holding bytes from a
previous firing on this CPU). -/
structure AuditMaps where
  with_filter : Bool
  filter : Nat → Bool
  containers : Nat → Option (List Nat)
  tmp_event : Option AuditEvent

/-- `kprobe__audit_seccomp`: `none` models `return 0` without
`bpf_perf_event_output`, `some ev` models emission of `ev`.  Every field of
the scratch event is overwritten before emission; the container field is
copied from the `containers` entry on a hit and `__builtin_memset` to zero on
a miss. -/
def kprobe__audit_seccomp (m : AuditMaps) (ctx : AuditCtx) : Option AuditEvent :=
  if ctx.mntns_id = 0 then none
  else if m.with_filter && !m.filter ctx.mntns_id then none
  else
    match m.tmp_event with
    | none => none
    | some event =>
      some { event with
             pid := ctx.pid_tgid % 2 ^ 32
             mntns_id := ctx.mntns_id
             syscall := ctx.syscall
             code := ctx.code
             comm := comm_fixed ctx.comm
             container :=
               match m.containers ctx.mntns_id with
               | some c => c
               | none => List.replicate CONTAINER_SIZE 0 }

/-! ## Concrete frames used by witnesses and counterexamples -/

/-- Build an `Skb` from an explicit byte list (bytes past the end read 0). -/
def mkSkb (l : List Nat) (pt : Nat) : Skb := ⟨fun i => l.getD i 0, pt⟩

/-- A well-formed IPv4/UDP DNS query frame for the name `a.b` (labels
`1,'a',1,'b',0`) with query type 1, question count 1 and no answers. -/
def goodFrameBytes : List Nat :=
  [0, 0, 0, 0, 0, 0, 0, 0, 0, 0, 0, 0, 0x08, 0x00] ++
  [0x45, 0, 0, 0, 0, 0, 0, 0, 64, 17, 0, 0, 0, 0, 0, 0, 0, 0, 0, 0] ++
  [0, 0, 0, 0, 0, 0, 0, 0] ++
  [0, 0, 0, 0, 0, 1, 0, 0, 0, 0, 0, 0] ++
  [1, 97, 1, 98, 0] ++ [0, 1] ++ [0, 1]

def goodFrame : Skb := mkSkb goodFrameBytes 3

/-- The same frame with the wire DNS flags set to `0x80 0x00`: a response
(QR = 1) from a server that does not advertise recursion (RA = 0), with one
echoed question and no answer or authority records. -/
def respFrameBytes : List Nat :=
  [0, 0, 0, 0, 0, 0, 0, 0, 0, 0, 0, 0, 0x08, 0x00] ++
  [0x45, 0, 0, 0, 0, 0, 0, 0, 64, 17, 0, 0, 0, 0, 0, 0, 0, 0, 0, 0] ++
  [0, 0, 0, 0, 0, 0, 0, 0] ++
  [0, 0, 0x80, 0, 0, 1, 0, 0, 0, 0, 0, 0] ++
  [1, 97, 1, 98, 0] ++ [0, 1] ++ [0, 1]

def respFrame : Skb := mkSkb respFrameBytes 0

/-- A valid query frame whose question name is the root domain: the byte
right after the DNS header is the zero-length terminator, followed by query
type 5. -/
def zeroNameFrameBytes : List Nat :=
  [0, 0, 0, 0, 0, 0, 0, 0, 0, 0, 0, 0, 0x08, 0x00] ++
  [0x45, 0, 0, 0, 0, 0, 0, 0, 64, 17, 0, 0, 0, 0, 0, 0, 0, 0, 0, 0] ++
  [0, 0, 0, 0, 0, 0, 0, 0] ++
  [0, 0, 0, 0, 0, 1, 0, 0, 0, 0, 0, 0] ++
  [0] ++ [0, 5]

def zeroNameFrame : Skb := mkSkb zeroNameFrameBytes 0

/-! ## Helper lemmas about the traversal loop -/

/-- Each loop iteration advances `i` by at most one, so the final index is
bounded by the initial index plus the fuel (the remaining iteration budget). -/
theorem skipLoop_le (skb : Skb) :
    ∀ fuel i s, skipLoop skb fuel i s ≤ i + fuel := by
  intro fuel
  induction fuel with
  | zero => intro i s; simp [skipLoop]
  | succ f ih =>
    intro i s
    by_cases hs : s ≠ 0
    · rw [skipLoop, if_pos hs]
      have := ih (i + 1) (s - 1)
      omega
    · rw [skipLoop, if_neg hs]
      by_cases hz : load_byte skb (qnameOff + i) = 0
      · rw [if_pos hz]; omega
      · rw [if_neg hz]
        have := ih (i + 1) (load_byte skb (qnameOff + i))
        omega

/-- If the loop stops strictly before exhausting its fuel, it stopped at a
`break`, i.e. the byte at the final index is a zero-length label. -/
theorem skipLoop_stop (skb : Skb) :
    ∀ fuel i s, skipLoop skb fuel i s < i + fuel →
      load_byte skb (qnameOff + skipLoop skb fuel i s) = 0 := by
  intro fuel
  induction fuel with
  | zero => intro i s h; simp [skipLoop] at h
  | succ f ih =>
    intro i s h
    by_cases hs : s ≠ 0
    · rw [skipLoop, if_pos hs] at h ⊢
      exact ih (i + 1) (s - 1) (by omega)
    · rw [skipLoop, if_neg hs] at h ⊢
      by_cases hz : load_byte skb (qnameOff + i) = 0
      · rw [if_pos hz] at h ⊢; exact hz
      · rw [if_neg hz] at h ⊢
        exact ih (i + 1) _ (by omega)

/-- The skip phase: while the counter is nonzero the loop only decrements it
and advances the index, so `s` pending skips consume `s` units of fuel (or
all the remaining fuel, whichever is less). -/
theorem skipLoop_skip_phase (skb : Skb) :
    ∀ s fuel i, skipLoop skb fuel i s =
      if s ≤ fuel then skipLoop skb (fuel - s) (i + s) 0 else i + fuel := by
  intro s
  induction s with
  | zero => intro fuel i; simp
  | succ s ih =>
    intro fuel i
    cases fuel with
    | zero => simp [skipLoop]
    | succ f =>
      have h1 : skipLoop skb (f + 1) i (s + 1) = skipLoop skb f (i + 1) s := by
        rw [skipLoop, if_pos (Nat.succ_ne_zero s), Nat.add_sub_cancel]
      rw [h1, ih f (i + 1)]
      by_cases h : s ≤ f
      · rw [if_pos h, if_pos (Nat.succ_le_succ h), Nat.succ_sub_succ]
        have he : i + 1 + s = i + (s + 1) := by omega
        rw [he]
      · rw [if_neg h, if_neg (fun hc => h (Nat.le_of_succ_le_succ hc))]
        omega

/-- Once the index reaches the cap, the direct-jump algorithm returns the
cap, whatever fuel remains. -/
theorem directJump_of_cap (skb : Skb) (fuel i : Nat) (h : MAX_DNS_NAME ≤ i) :
    directJump skb fuel i = MAX_DNS_NAME := by
  cases fuel with
  | zero => rw [directJump]; exact Nat.min_eq_right h
  | succ f => rw [directJump, if_pos h]

/-- The direct-jump result never exceeds the cap. -/
theorem directJump_le (skb : Skb) :
    ∀ fuel i, directJump skb fuel i ≤ MAX_DNS_NAME := by
  intro fuel
  induction fuel with
  | zero => intro i; rw [directJump]; exact Nat.min_le_right _ _
  | succ f ih =>
    intro i
    rw [directJump]
    by_cases hc : MAX_DNS_NAME ≤ i
    · rw [if_pos hc]
    · rw [if_neg hc]
      by_cases hz : load_byte skb (qnameOff + i) = 0
      · rw [if_pos hz]; omega
      · rw [if_neg hz]; exact ih _

/-- Equivalence of the two traversals: the capped counting loop started at
index `i` with an empty skip counter computes exactly the direct additive
jump from `i`. -/
theorem skipLoop_eq_directJump (skb : Skb) :
    ∀ fuel i, i ≤ MAX_DNS_NAME → MAX_DNS_NAME - i ≤ fuel →
      skipLoop skb (MAX_DNS_NAME - i) i 0 = directJump skb fuel i := by
  intro fuel
  induction fuel with
  | zero =>
    intro i h1 h2
    have hi : i = MAX_DNS_NAME := by omega
    subst hi
    rw [Nat.sub_self, skipLoop, directJump, Nat.min_self]
  | succ f ih =>
    intro i h1 h2
    by_cases hcap : MAX_DNS_NAME ≤ i
    · have hi : i = MAX_DNS_NAME := Nat.le_antisymm h1 hcap
      subst hi
      rw [Nat.sub_self, skipLoop, directJump_of_cap skb _ _ (Nat.le_refl _)]
    · push_neg at hcap
      have hfs : MAX_DNS_NAME - i = (MAX_DNS_NAME - i - 1) + 1 := by omega
      rw [directJump, if_neg (Nat.not_le.mpr hcap)]
      by_cases hz : load_byte skb (qnameOff + i) = 0
      · rw [if_pos hz, hfs, skipLoop, if_neg (by omega), if_pos hz]
      · rw [if_neg hz]
        rw [hfs, skipLoop, if_neg (by omega), if_neg hz,
          skipLoop_skip_phase skb (load_byte skb (qnameOff + i)) _ _]
        by_cases hL : load_byte skb (qnameOff + i) ≤ MAX_DNS_NAME - i - 1
        · rw [if_pos hL]
          have he1 : MAX_DNS_NAME - i - 1 - load_byte skb (qnameOff + i) =
              MAX_DNS_NAME - (i + load_byte skb (qnameOff + i) + 1) := by omega
          have he2 : i + 1 + load_byte skb (qnameOff + i) =
              i + load_byte skb (qnameOff + i) + 1 := by omega
          rw [he1, he2]
          exact ih _ (by omega) (by omega)
        · rw [if_neg hL]
          rw [directJump_of_cap skb f _ (by omega)]
          omega

/-- The loop's read set is contained in the first `MAX_DNS_NAME` bytes after
the DNS header: two frames agreeing there drive the loop identically. -/
theorem skipLoop_congr (skb g : Skb)
    (hag : ∀ j, j < MAX_DNS_NAME →
      load_byte g (qnameOff + j) = load_byte skb (qnameOff + j)) :
    ∀ fuel i s, i + fuel ≤ MAX_DNS_NAME →
      skipLoop g fuel i s = skipLoop skb fuel i s := by
  intro fuel
  induction fuel with
  | zero => intro i s _; rw [skipLoop, skipLoop]
  | succ f ih =>
    intro i s h
    have hi : i < MAX_DNS_NAME := by omega
    by_cases hs : s ≠ 0
    · rw [skipLoop, if_pos hs, skipLoop, if_pos hs]
      exact ih (i + 1) (s - 1) (by omega)
    · rw [skipLoop, if_neg hs, skipLoop, if_neg hs, hag i hi]
      by_cases hz : load_byte skb (qnameOff + i) = 0
      · rw [if_pos hz, if_pos hz]
      · rw [if_neg hz, if_neg hz]
        exact ih (i + 1) _ (by omega)

/-- The captured length computed by the probe equals the direct algorithm's
capped name length. -/
theorem capturedLen_eq_directNameLen (skb : Skb) :
    capturedLen skb = directNameLen skb := by
  have h := skipLoop_eq_directJump skb MAX_DNS_NAME 0 (Nat.zero_le _)
    (by rw [Nat.sub_zero])
  rw [Nat.sub_zero] at h
  have hle := directJump_le skb MAX_DNS_NAME 0
  rw [capturedLen, dnsLoopEnd, directNameLen, h]
  by_cases hlt : directJump skb MAX_DNS_NAME 0 < MAX_DNS_NAME
  · rw [if_pos hlt]
  · rw [if_neg hlt]; omega

/-! ## Helper lemmas about the event build -/

/-- The name buffer always has the full compile-time capacity. -/
theorem loadName_length (skb : Skb) (len : Nat) :
    (loadName skb len).length = MAX_DNS_NAME := by
  simp [loadName]

/-- With a zero captured length the load is skipped and the buffer keeps its
zero initialisation. -/
theorem loadName_zero (skb : Skb) : loadName skb 0 = List.replicate MAX_DNS_NAME 0 := by
  have hf : (fun j => if j < 0 then load_byte skb (qnameOff + j) else 0) =
      Function.const Nat 0 := by
    funext j
    simp [Function.const]
  rw [loadName, hf, List.map_const, List.length_range]

/-- Buffer bytes at or past the captured length keep their zero
initialisation. -/
theorem loadName_getD_of_le (skb : Skb) (len j : Nat) (h : len ≤ j) :
    (loadName skb len).getD j 0 = 0 := by
  rw [loadName, List.getD_eq_getElem?_getD, List.getElem?_map]
  by_cases hj : j < MAX_DNS_NAME
  · rw [List.getElem?_range hj]
    simp [Nat.not_lt.mpr h]
  · rw [List.getElem?_eq_none (by simpa using Nat.not_lt.mp hj)]
    rfl

/-- The probe's outcome, as a function of the validation chain: an event
built from the captured name, the packet classifier and the query type when
every filter passes, and nothing otherwise. -/
theorem bpf_prog1_char (skb : Skb) :
    bpf_prog1 skb =
      if passesValidation skb = true then
        some { name := loadName skb (capturedLen skb)
               pkt_type := skb.pkt_type
               qtype := load_half skb (qnameOff + capturedLen skb + 1) }
      else none := by
  unfold bpf_prog1
  split_ifs with h1 h2 h3 h4 h5 h6 <;> simp_all [passesValidation]

/-! ## Concrete audit-probe inputs used by witnesses -/

/-- Arbitrary residue left in the scratch slot by a previous firing. -/
def staleEvent : AuditEvent := ⟨11, 12, 13, -14, [15], [16]⟩

/-- A sample container identity snapshot. -/
def snap0 : List Nat := List.replicate CONTAINER_SIZE 7

/-- A firing from namespace 42; the pid/tgid word has bits above 32 set to
exercise the truncation to the event's 32-bit pid field. -/
def auditCtx42 : AuditCtx := ⟨59, -1, 2 ^ 33 + 5, [104, 105], 42⟩

/-- A firing whose mount namespace resolved to the sentinel 0. -/
def sentinelCtx : AuditCtx := ⟨59, -1, 6, [104], 0⟩

/-- Maps without the compile-time filter, with namespace 42 enriched. -/
def auditMaps0 : AuditMaps :=
  ⟨false, fun _ => false, fun n => if n = 42 then some snap0 else none, some staleEvent⟩

/-- The event `kprobe__audit_seccomp` emits for `auditMaps0`/`auditCtx42`. -/
def auditEvent42 : AuditEvent := ⟨5, 42, 59, -1, comm_fixed [104, 105], snap0⟩

/-- The event `bpf_prog1` emits for `goodFrame`. -/
def goodEvent : event_t :=
  ⟨[1, 97, 1, 98] ++ List.replicate (MAX_DNS_NAME - 4) 0, 3, 1⟩

/-! ## The claims -/

/-- C1: for every frame passing the DNS validation chain, the label-traversal
loop runs at most `MAX_DNS_NAME` iterations (its fuel, which also bounds the
final index); when it stops below the cap it stopped at a zero-length label;
when the encoded name length exceeds the cap (the direct traversal finds no
terminator within it) the captured length is exactly `MAX_DNS_NAME`; and the
traversal reads no frame byte at or beyond `MAX_DNS_NAME` bytes past the DNS
header — any frame agreeing on those bytes drives the loop to the same
result. -/
theorem dns_label_loop_bounded (skb : Skb) (_hv : passesValidation skb = true) :
    dnsLoopEnd skb ≤ MAX_DNS_NAME ∧
    capturedLen skb ≤ MAX_DNS_NAME ∧
    (dnsLoopEnd skb < MAX_DNS_NAME →
      load_byte skb (qnameOff + dnsLoopEnd skb) = 0) ∧
    (directNameLen skb = MAX_DNS_NAME → capturedLen skb = MAX_DNS_NAME) ∧
    (∀ g : Skb,
      (∀ j, j < MAX_DNS_NAME →
        load_byte g (qnameOff + j) = load_byte skb (qnameOff + j)) →
      dnsLoopEnd g = dnsLoopEnd skb) := by
  refine ⟨?_, ?_, ?_, ?_, ?_⟩
  · have := skipLoop_le skb MAX_DNS_NAME 0 0
    simpa [dnsLoopEnd] using this
  · rw [capturedLen]
    split_ifs <;> omega
  · intro hlt
    exact skipLoop_stop skb MAX_DNS_NAME 0 0 (by simpa [dnsLoopEnd] using hlt)
  · intro hd
    rw [capturedLen_eq_directNameLen]
    exact hd
  · intro g hag
    exact skipLoop_congr skb g hag MAX_DNS_NAME 0 0 (by omega)

theorem dns_label_loop_bounded_witness :
    passesValidation goodFrame = true ∧ dnsLoopEnd goodFrame ≤ MAX_DNS_NAME :=
  ⟨by decide, (dns_label_loop_bounded goodFrame (by decide)).1⟩

/-- C2: the skip-counter traversal the program implements computes, for every
frame, the same capped query-name length as the direct additive-jump
algorithm stated from the spec's words. -/
theorem skip_counter_matches_direct_jump (skb : Skb) :
    capturedLen skb = directNameLen skb :=
  capturedLen_eq_directNameLen skb

/-- C3: whenever the audit probe reaches emission, the container field is the
stored snapshot byte-for-byte on an Enrichment Table hit and all-zero bytes
on a miss; and an enrichment miss never suppresses the event — whether the
probe emits does not depend on the containers map at all, and the remaining
fields are always fully populated from the firing context. -/
theorem audit_enrichment_byte_for_byte (m : AuditMaps) (ctx : AuditCtx) :
    (∀ ev, kprobe__audit_seccomp m ctx = some ev →
      (∀ c, m.containers ctx.mntns_id = some c → ev.container = c) ∧
      (m.containers ctx.mntns_id = none →
        ev.container = List.replicate CONTAINER_SIZE 0) ∧
      ev.pid = ctx.pid_tgid % 2 ^ 32 ∧ ev.mntns_id = ctx.mntns_id ∧
      ev.syscall = ctx.syscall ∧ ev.code = ctx.code ∧
      ev.comm = comm_fixed ctx.comm) ∧
    (∀ cont cont' : Nat → Option (List Nat),
      (kprobe__audit_seccomp { m with containers := cont } ctx).isSome =
        (kprobe__audit_seccomp { m with containers := cont' } ctx).isSome) := by
  obtain ⟨wf, fl, conts, tmp⟩ := m
  constructor
  · intro ev h
    rw [kprobe__audit_seccomp] at h
    by_cases h0 : ctx.mntns_id = 0
    · rw [if_pos h0] at h
      exact absurd h (by simp)
    · rw [if_neg h0] at h
      by_cases hf : (AuditMaps.mk wf fl conts tmp).with_filter &&
          !(AuditMaps.mk wf fl conts tmp).filter ctx.mntns_id
      · rw [if_pos hf] at h
        exact absurd h (by simp)
      · rw [if_neg hf] at h
        cases htmp : tmp with
        | none =>
          rw [htmp] at h
          exact absurd h (by simp)
        | some stale =>
          rw [htmp] at h
          injection h with h
          subst h
          refine ⟨?_, ?_, rfl, rfl, rfl, rfl, rfl⟩
          · intro c hc
            rw [hc]
          · intro hc
            rw [hc]
  · intro cont cont'
    simp only [kprobe__audit_seccomp]
    cases tmp <;> split_ifs <;> rfl

theorem audit_enrichment_byte_for_byte_witness :
    kprobe__audit_seccomp auditMaps0 auditCtx42 = some auditEvent42 ∧
    auditEvent42.container = snap0 :=
  ⟨by decide,
   ((audit_enrichment_byte_for_byte auditMaps0 auditCtx42).1 auditEvent42
      (by decide)).1 snap0 (by decide)⟩

/-- C4: a firing whose resolved mount namespace is the sentinel 0 returns
immediately with no event, whatever the maps contain — no filter check,
scratch-slot access or channel write is reached. -/
theorem audit_sentinel_no_event (m : AuditMaps) (ctx : AuditCtx)
    (h : ctx.mntns_id = 0) : kprobe__audit_seccomp m ctx = none := by
  rw [kprobe__audit_seccomp, if_pos h]

theorem audit_sentinel_no_event_witness :
    sentinelCtx.mntns_id = 0 ∧
    kprobe__audit_seccomp auditMaps0 sentinelCtx = none :=
  ⟨rfl, audit_sentinel_no_event auditMaps0 sentinelCtx rfl⟩

/-- C5 (code bug): the probe is meant to drop DNS responses, but its `qr`
test, as compiled for the little-endian BPF target, reads bit 7 of the
host-order flags value — the wire RA (recursion available) bit — instead of
the wire QR bit (bit 15).  `respFrame` is a response (wire QR = 1) from a
server with RA = 0 carrying one echoed question and no answer or authority
records: it passes every filter, the compiled `flags.qr` evaluates to 0, and
the probe emits an event, contradicting both the claim and the source's own
`Skip non DNS Query packets` comment. -/
theorem dns_response_bit_misread :
    wireQR (load_half respFrame flagsOff) = 1 ∧
    dnsflags_qr (load_half respFrame flagsOff) = 0 ∧
    load_half respFrame qdcountOff = 1 ∧
    load_half respFrame ancountOff = 0 ∧
    load_half respFrame nscountOff = 0 ∧
    (bpf_prog1 respFrame).isSome = true := by
  refine ⟨by decide, by decide, by decide, by decide, by decide, by decide⟩

/-- C6: on the concrete `a.b` query frame — question count 1, answer and
authority counts 0, name encoded `1,'a',1,'b',0`, query type 1 — the probe
captures name length 4, the event's name buffer holds exactly the bytes
`1,'a',1,'b'` (terminator excluded, tail zero-filled) and the query type
is 1. -/
theorem dns_concrete_ab_query :
    capturedLen goodFrame = 4 ∧
    bpf_prog1 goodFrame =
      some { name := [1, 97, 1, 98] ++ List.replicate (MAX_DNS_NAME - 4) 0
             pkt_type := goodFrame.pkt_type
             qtype := 1 } :=
  ⟨by decide, by decide⟩

/-- C7: every emitted DNS event's query type is the 16-bit big-endian value
read at captured-name-length + 1 bytes past the end of the fixed DNS header
(right after the name's single-byte terminator). -/
theorem dns_qtype_after_name (skb : Skb) (ev : event_t)
    (h : bpf_prog1 skb = some ev) :
    ev.qtype = load_half skb (qnameOff + capturedLen skb + 1) := by
  rw [bpf_prog1_char] at h
  by_cases hv : passesValidation skb = true
  · rw [if_pos hv] at h
    injection h with h
    rw [← h]
  · rw [if_neg hv] at h
    exact absurd h (by simp)

theorem dns_qtype_after_name_witness :
    bpf_prog1 goodFrame = some goodEvent ∧
    goodEvent.qtype = load_half goodFrame (qnameOff + capturedLen goodFrame + 1) :=
  ⟨by decide, dns_qtype_after_name goodFrame goodEvent (by decide)⟩

/-- C8: with the Admission Filter compiled in, a nonzero namespace absent
from the filter is dropped before any event is built, whatever the other
inputs; without it no admission check happens — the result does not depend
on the filter map, and every nonzero namespace with an available scratch
slot produces an event. -/
theorem audit_filter_gate (fs : Nat → Bool) (cont : Nat → Option (List Nat))
    (slot : Option AuditEvent) (ctx : AuditCtx) :
    (ctx.mntns_id ≠ 0 → fs ctx.mntns_id = false →
      kprobe__audit_seccomp ⟨true, fs, cont, slot⟩ ctx = none) ∧
    (∀ fs2 : Nat → Bool,
      kprobe__audit_seccomp ⟨false, fs, cont, slot⟩ ctx =
        kprobe__audit_seccomp ⟨false, fs2, cont, slot⟩ ctx) ∧
    (ctx.mntns_id ≠ 0 → slot.isSome = true →
      (kprobe__audit_seccomp ⟨false, fs, cont, slot⟩ ctx).isSome = true) := by
  refine ⟨?_, ?_, ?_⟩
  · intro h0 hmiss
    rw [kprobe__audit_seccomp, if_neg h0]
    simp [hmiss]
  · intro fs2
    rw [kprobe__audit_seccomp, kprobe__audit_seccomp]
    simp
  · intro h0 hs
    rw [kprobe__audit_seccomp, if_neg h0]
    rcases slot with _ | stale
    · simp at hs
    · simp

theorem audit_filter_gate_witness :
    kprobe__audit_seccomp ⟨true, fun _ => false, fun _ => none, some staleEvent⟩
      auditCtx42 = none ∧
    (kprobe__audit_seccomp ⟨false, fun _ => false, fun _ => none, some staleEvent⟩
      auditCtx42).isSome = true :=
  ⟨(audit_filter_gate (fun _ => false) (fun _ => none) (some staleEvent)
      auditCtx42).1 (by decide) rfl,
   (audit_filter_gate (fun _ => false) (fun _ => none) (some staleEvent)
      auditCtx42).2.2 (by decide) rfl⟩

/-- C9: a frame that passes the full validation chain and whose captured name
length is 0 (the byte after the DNS header is a zero-length label) still
yields an event: all-zero name buffer, the frame's packet classifier, and the
query type read right after the terminator. -/
theorem dns_zero_name_emitted (skb : Skb) (h1 : passesValidation skb = true)
    (h2 : capturedLen skb = 0) :
    bpf_prog1 skb =
      some { name := List.replicate MAX_DNS_NAME 0
             pkt_type := skb.pkt_type
             qtype := load_half skb (qnameOff + 1) } := by
  rw [bpf_prog1_char, if_pos h1, h2, loadName_zero]

theorem dns_zero_name_emitted_witness :
    passesValidation zeroNameFrame = true ∧ capturedLen zeroNameFrame = 0 ∧
    bpf_prog1 zeroNameFrame =
      some { name := List.replicate MAX_DNS_NAME 0
             pkt_type := zeroNameFrame.pkt_type
             qtype := load_half zeroNameFrame (qnameOff + 1) } :=
  ⟨by decide, by decide,
   dns_zero_name_emitted zeroNameFrame (by decide) (by decide)⟩

/-- C10: every emitted DNS event is built from the zero-initialised record
`event_t event = \x7b0,\x7d`: the name buffer has full capacity, every byte at or
past the captured length is still zero, and the event is a function of the
frame alone — any two emissions for the same frame are identical. -/
theorem dns_event_zero_tail (skb : Skb) (ev : event_t)
    (h : bpf_prog1 skb = some ev) :
    ev.name.length = MAX_DNS_NAME ∧
    (∀ j, capturedLen skb ≤ j → ev.name.getD j 0 = 0) ∧
    (∀ ev2, bpf_prog1 skb = some ev2 → ev2 = ev) := by
  rw [bpf_prog1_char] at h
  by_cases hv : passesValidation skb = true
  · rw [if_pos hv] at h
    injection h with h
    refine ⟨?_, ?_, ?_⟩
    · rw [← h]
      exact loadName_length skb _
    · intro j hj
      rw [← h]
      exact loadName_getD_of_le skb _ j hj
    · intro ev2 h2
      rw [bpf_prog1_char, if_pos hv] at h2
      injection h2 with h2
      rw [← h2, ← h]
  · rw [if_neg hv] at h
    exact absurd h (by simp)

theorem dns_event_zero_tail_witness :
    bpf_prog1 goodFrame = some goodEvent ∧ goodEvent.name.getD 10 0 = 0 :=
  ⟨by decide,
   (dns_event_zero_tail goodFrame goodEvent (by decide)).2.1 10 (by decide)⟩

end IG
